import Mathlib

/-!
Verification of the SPSC byte ring buffer of `ring_buffer_example`.

The repository's `src/` holds only `src/ring_buffer_example/src/main.rs`: the
`RingBufferApi` trait, its two impls (which delegate to `RingBuf` in
`ring_buffer.rs` and `RingBufSeq` in `ring_buffer_seq.rs`), and the benchmark /
deadlock-test drivers.  The files `ring_buffer.rs` and `ring_buffer_seq.rs`
themselves are not present, so the buffer operations below are modelled from
the specification (spec.md §3, §4.1, §4.2, §4.4, §4.5).  The error-mapping
layer of `main.rs` (lines 35–40 and 59–66) is embedded from that source.

All machine integers here are `Nat`: the cursors are `u64` counters that the
spec declares monotone and never wrapping, and `usize` quantities are byte
counts bounded by the capacity.
-/

/-- Modelled from `main.rs` (`ring_buffer::SysErr`, used at line 61):
POSIX-style error codes carried by `SysError`.  Only `EINVAL` appears. -/
inductive SysErr where
  | EINVAL
deriving DecidableEq, Repr

/-- Modelled from `main.rs` (`ring_buffer::Error`, used at lines 15–16, 61):
the error type of the copying `write`/`read` operations. -/
inductive Error where
  | SysError (code : SysErr)
deriving DecidableEq, Repr

/-- Modelled from the spec: the missing `ring_buffer.rs` / `ring_buffer_seq.rs`
define field-identical buffer structs (spec §3 "RingBuffer" data model):
fixed `capacity`, backing `storage` of `capacity` bytes, and the two
monotone cursors.  Bytes are modelled as `Nat`. -/
structure RingBuf where
  capacity : Nat
  storage : List Nat
  write_cursor : Nat
  read_cursor : Nat
deriving DecidableEq, Repr

/-- The strict (sequentially consistent) variant `RingBufSeq` of
`ring_buffer_seq.rs` has the same fields as `RingBuf` (spec §4.3: "two
interchangeable instantiations ... differing only in the atomic memory
ordering"); under the sequential semantics of this embedding it shares the
state type. -/
abbrev RingBufSeq := RingBuf

namespace RingBuf

/-- Modelled from the spec (§4.5 `new`): missing `RingBuf::new` in
`ring_buffer.rs`.  Allocates `capacity` bytes (content arbitrary, modelled as
zeros) and zeroes both cursors. -/
def new (count : Nat) : RingBuf :=
  { capacity := count
    storage := List.replicate count 0
    write_cursor := 0
    read_cursor := 0 }

/-- Modelled from the spec (§4.1 `space_region`): missing
`RingBuf::get_space_buf` in `ring_buffer.rs`.  Returns the physical offset
`write_cursor mod capacity` (standing in for the pointer) and
`length = min(free, capacity − write_cursor mod capacity)` where
`free = capacity − (write_cursor − read_cursor)`. -/
def get_space_buf (rb : RingBuf) : Nat × Nat :=
  let free := rb.capacity - (rb.write_cursor - rb.read_cursor)
  let off := rb.write_cursor % rb.capacity
  (off, min free (rb.capacity - off))

/-- Modelled from the spec (§4.1 `data_region`): missing
`RingBuf::get_data_buf` in `ring_buffer.rs`.  Offset `read_cursor mod
capacity`, `length = min(available, capacity − read_cursor mod capacity)`
where `available = write_cursor − read_cursor`. -/
def get_data_buf (rb : RingBuf) : Nat × Nat :=
  let available := rb.write_cursor - rb.read_cursor
  let off := rb.read_cursor % rb.capacity
  (off, min available (rb.capacity - off))

/-- Modelled from the spec (§4.2 `commit_write`): missing `RingBuf::produce`
in `ring_buffer.rs`.  Advances `write_cursor` by `count`; returns `true` iff
the call transitions the buffer from empty (occupancy 0) to non-empty. -/
def produce (rb : RingBuf) (count : Nat) : RingBuf × Bool :=
  let wasEmpty := rb.write_cursor - rb.read_cursor == 0
  let rb' := { rb with write_cursor := rb.write_cursor + count }
  (rb', wasEmpty && !(rb'.write_cursor - rb'.read_cursor == 0))

/-- Modelled from the spec (§4.2 `commit_read`): missing `RingBuf::consume`
in `ring_buffer.rs`.  Advances `read_cursor` by `count`; returns `true` iff
the call transitions the buffer from full (free space 0) to non-full. -/
def consume (rb : RingBuf) (count : Nat) : RingBuf × Bool :=
  let wasFull := rb.capacity - (rb.write_cursor - rb.read_cursor) == 0
  let rb' := { rb with read_cursor := rb.read_cursor + count }
  (rb', wasFull && !(rb.capacity - (rb'.write_cursor - rb'.read_cursor) == 0))

/-- Overwrite `storage[off .. off + bytes.length)` with `bytes`: the plain
memory copy performed by the copying `write` into the contiguous region. -/
def storeBytes (storage : List Nat) (off : Nat) (bytes : List Nat) : List Nat :=
  storage.take off ++ bytes ++ storage.drop (off + bytes.length)

/-- Modelled from the spec (§4.4 `write`): missing `RingBuf::write` in
`ring_buffer.rs`.  Fails with `EINVAL` only for a zero-capacity target with
contradictory state; on zero contiguous space returns `(false, 0)`; otherwise
copies `min(len(bytes), region.length)` bytes into the region, commits them
via `produce`, and returns its boolean with the transferred count. -/
def write (rb : RingBuf) (bytes : List Nat) : Except Error (RingBuf × Bool × Nat) :=
  if rb.capacity == 0 && !(rb.write_cursor == rb.read_cursor) then
    .error (.SysError .EINVAL)
  else
    let region := rb.get_space_buf
    if region.2 = 0 then
      .ok (rb, false, 0)
    else
      let n := min bytes.length region.2
      let rb1 := { rb with storage := storeBytes rb.storage region.1 (bytes.take n) }
      let pr := rb1.produce n
      .ok (pr.1, pr.2, n)

/-- Modelled from the spec (§4.4 `read`): missing `RingBuf::read` in
`ring_buffer.rs`.  Symmetric to `write` via `get_data_buf`/`consume`; the
caller's destination slice is modelled by its length `bufLen`, and the bytes
copied out are returned. -/
def read (rb : RingBuf) (bufLen : Nat) : Except Error (RingBuf × Bool × Nat × List Nat) :=
  if rb.capacity == 0 && !(rb.write_cursor == rb.read_cursor) then
    .error (.SysError .EINVAL)
  else
    let region := rb.get_data_buf
    if region.2 = 0 then
      .ok (rb, false, 0, [])
    else
      let n := min bufLen region.2
      let out := (rb.storage.drop region.1).take n
      let cr := rb.consume n
      .ok (cr.1, cr.2, n, out)

end RingBuf

/-- Well-formedness of a buffer state: the spec §3 cursor invariants.  Every
state reachable by legal calls satisfies it (see `cursor_pair_invariant`). -/
def WF (rb : RingBuf) : Prop :=
  rb.read_cursor ≤ rb.write_cursor ∧ rb.write_cursor - rb.read_cursor ≤ rb.capacity

instance (rb : RingBuf) : Decidable (WF rb) := by
  unfold WF; infer_instance

/-- States reachable from a fresh buffer of capacity `c` by `produce` /
`consume` calls that respect the "commit ≤ last reported region length"
precondition (spec §4.2, restricted to the conservative single-commit form
where each commit is checked against the currently reported region). -/
inductive Reachable (c : Nat) : RingBuf → Prop where
  | init : Reachable c (RingBuf.new c)
  | produceStep {rb : RingBuf} (n : Nat) :
      Reachable c rb → n ≤ rb.get_space_buf.2 → Reachable c (rb.produce n).1
  | consumeStep {rb : RingBuf} (n : Nat) :
      Reachable c rb → n ≤ rb.get_data_buf.2 → Reachable c (rb.consume n).1

/-- Modelled from the spec: the error type private to the missing
`ring_buffer_seq.rs`; `main.rs` lines 61 and 65 map every such error to
`ring_buffer::Error::SysError(EINVAL)` without inspecting it.  §7 names only
the invalid-argument contract violation as a failure of the copying path. -/
inductive SeqError where
  | EINVAL
deriving DecidableEq, Repr

namespace RingBufSeq

/-- Modelled from the spec (§4.5, §4.3): missing `RingBufSeq::new` in
`ring_buffer_seq.rs`, structurally identical to `RingBuf::new`. -/
def new (count : Nat) : RingBufSeq :=
  { capacity := count
    storage := List.replicate count 0
    write_cursor := 0
    read_cursor := 0 }

/-- Modelled from the spec (§4.1, §4.3): missing `RingBufSeq::get_space_buf`,
the strict variant's `space_region`; same formula as the relaxed variant,
SeqCst cursor loads being invisible under sequential semantics. -/
def get_space_buf (rb : RingBufSeq) : Nat × Nat :=
  let free := rb.capacity - (rb.write_cursor - rb.read_cursor)
  let off := rb.write_cursor % rb.capacity
  (off, min free (rb.capacity - off))

/-- Modelled from the spec (§4.1, §4.3): missing `RingBufSeq::get_data_buf`. -/
def get_data_buf (rb : RingBufSeq) : Nat × Nat :=
  let available := rb.write_cursor - rb.read_cursor
  let off := rb.read_cursor % rb.capacity
  (off, min available (rb.capacity - off))

/-- Modelled from the spec (§4.2, §4.3): missing `RingBufSeq::produce`. -/
def produce (rb : RingBufSeq) (count : Nat) : RingBufSeq × Bool :=
  let wasEmpty := rb.write_cursor - rb.read_cursor == 0
  let rb' := { rb with write_cursor := rb.write_cursor + count }
  (rb', wasEmpty && !(rb'.write_cursor - rb'.read_cursor == 0))

/-- Modelled from the spec (§4.2, §4.3): missing `RingBufSeq::consume`. -/
def consume (rb : RingBufSeq) (count : Nat) : RingBufSeq × Bool :=
  let wasFull := rb.capacity - (rb.write_cursor - rb.read_cursor) == 0
  let rb' := { rb with read_cursor := rb.read_cursor + count }
  (rb', wasFull && !(rb.capacity - (rb'.write_cursor - rb'.read_cursor) == 0))

/-- Modelled from the spec (§4.4, §4.3): missing `RingBufSeq::write`,
returning the variant's private error type (mapped by `main.rs` line 61). -/
def write (rb : RingBufSeq) (bytes : List Nat) :
    Except SeqError (RingBufSeq × Bool × Nat) :=
  if rb.capacity == 0 && !(rb.write_cursor == rb.read_cursor) then
    .error .EINVAL
  else
    let region := RingBufSeq.get_space_buf rb
    if region.2 = 0 then
      .ok (rb, false, 0)
    else
      let n := min bytes.length region.2
      let rb1 :=
        { rb with storage := RingBuf.storeBytes rb.storage region.1 (bytes.take n) }
      let pr := RingBufSeq.produce rb1 n
      .ok (pr.1, pr.2, n)

/-- Modelled from the spec (§4.4, §4.3): missing `RingBufSeq::read`. -/
def read (rb : RingBufSeq) (bufLen : Nat) :
    Except SeqError (RingBufSeq × Bool × Nat × List Nat) :=
  if rb.capacity == 0 && !(rb.write_cursor == rb.read_cursor) then
    .error .EINVAL
  else
    let region := RingBufSeq.get_data_buf rb
    if region.2 = 0 then
      .ok (rb, false, 0, [])
    else
      let n := min bufLen region.2
      let out := (rb.storage.drop region.1).take n
      let cr := RingBufSeq.consume rb n
      .ok (cr.1, cr.2, n, out)

end RingBufSeq

/-- From `main.rs` lines 59–62 (`impl RingBufferApi for RingBufSeq`,
`fn write`): the strict variant's API-level write maps any internal error to
`Error::SysError(SysErr::EINVAL)`. -/
def apiWriteSeq (rb : RingBufSeq) (bytes : List Nat) :
    Except Error (RingBufSeq × Bool × Nat) :=
  (RingBufSeq.write rb bytes).mapError fun _ => Error.SysError SysErr.EINVAL

/-- From `main.rs` lines 63–66 (`impl RingBufferApi for RingBufSeq`,
`fn read`): same mapping on the read path. -/
def apiReadSeq (rb : RingBufSeq) (bufLen : Nat) :
    Except Error (RingBufSeq × Bool × Nat × List Nat) :=
  (RingBufSeq.read rb bufLen).mapError fun _ => Error.SysError SysErr.EINVAL

/-- One call of the `RingBufferApi` trait of `main.rs` lines 9–17, with the
caller-supplied argument; the destination of `read` is given by length. -/
inductive ApiOp where
  | spaceBuf
  | dataBuf
  | produceOp (n : Nat)
  | consumeOp (n : Nat)
  | writeOp (bytes : List Nat)
  | readOp (bufLen : Nat)
deriving DecidableEq, Repr

/-- The observable result of one `RingBufferApi` call. -/
inductive ApiResult where
  | region (off len : Nat)
  | notify (b : Bool)
  | wroteRes (r : Except Error (Bool × Nat))
  | readRes (r : Except Error (Bool × Nat × List Nat))
deriving Repr

/-- One API call on the relaxed variant (`impl RingBufferApi for RingBuf`,
`main.rs` lines 19–41: every method passes straight through). -/
def stepRelaxed (rb : RingBuf) : ApiOp → RingBuf × ApiResult
  | .spaceBuf => (rb, .region rb.get_space_buf.1 rb.get_space_buf.2)
  | .dataBuf => (rb, .region rb.get_data_buf.1 rb.get_data_buf.2)
  | .produceOp n => ((rb.produce n).1, .notify (rb.produce n).2)
  | .consumeOp n => ((rb.consume n).1, .notify (rb.consume n).2)
  | .writeOp bytes =>
      match rb.write bytes with
      | .ok (rb', b, n) => (rb', .wroteRes (.ok (b, n)))
      | .error e => (rb, .wroteRes (.error e))
  | .readOp bufLen =>
      match rb.read bufLen with
      | .ok (rb', b, n, out) => (rb', .readRes (.ok (b, n, out)))
      | .error e => (rb, .readRes (.error e))

/-- One API call on the strict variant (`impl RingBufferApi for RingBufSeq`,
`main.rs` lines 43–67: zero-copy methods pass through, `write`/`read` map
errors to `SysError(EINVAL)`). -/
def stepSeq (rb : RingBufSeq) : ApiOp → RingBufSeq × ApiResult
  | .spaceBuf =>
      (rb, .region (RingBufSeq.get_space_buf rb).1 (RingBufSeq.get_space_buf rb).2)
  | .dataBuf =>
      (rb, .region (RingBufSeq.get_data_buf rb).1 (RingBufSeq.get_data_buf rb).2)
  | .produceOp n => ((RingBufSeq.produce rb n).1, .notify (RingBufSeq.produce rb n).2)
  | .consumeOp n => ((RingBufSeq.consume rb n).1, .notify (RingBufSeq.consume rb n).2)
  | .writeOp bytes =>
      match apiWriteSeq rb bytes with
      | .ok (rb', b, n) => (rb', .wroteRes (.ok (b, n)))
      | .error e => (rb, .wroteRes (.error e))
  | .readOp bufLen =>
      match apiReadSeq rb bufLen with
      | .ok (rb', b, n, out) => (rb', .readRes (.ok (b, n, out)))
      | .error e => (rb, .readRes (.error e))

/-- Run a call sequence on the relaxed variant, collecting every result. -/
def runRelaxed (rb : RingBuf) : List ApiOp → RingBuf × List ApiResult
  | [] => (rb, [])
  | op :: ops =>
      let s := stepRelaxed rb op
      let rest := runRelaxed s.1 ops
      (rest.1, s.2 :: rest.2)

/-- Run a call sequence on the strict variant, collecting every result. -/
def runSeq (rb : RingBufSeq) : List ApiOp → RingBufSeq × List ApiResult
  | [] => (rb, [])
  | op :: ops =>
      let s := stepSeq rb op
      let rest := runSeq s.1 ops
      (rest.1, s.2 :: rest.2)

/-! ## Helper lemmas -/

/-- The reported space length never exceeds the logical free space. -/
theorem get_space_buf_len_le (rb : RingBuf) :
    rb.get_space_buf.2 ≤ rb.capacity - (rb.write_cursor - rb.read_cursor) :=
  Nat.min_le_left _ _

/-- The reported data length never exceeds the logical occupancy. -/
theorem get_data_buf_len_le (rb : RingBuf) :
    rb.get_data_buf.2 ≤ rb.write_cursor - rb.read_cursor :=
  Nat.min_le_left _ _

/-! ## Claim theorems -/

/-- **C1**: for every sequence of `produce` (commit_write) / `consume`
(commit_read) calls from a fresh buffer that respects the "commit ≤ last
reported region length" precondition, the cursor pair satisfies
`read_cursor ≤ write_cursor` and `write_cursor − read_cursor ≤ capacity`
at every observation point. -/
theorem cursor_pair_invariant {c : Nat} {rb : RingBuf} (h : Reachable c rb) :
    rb.read_cursor ≤ rb.write_cursor ∧
      rb.write_cursor - rb.read_cursor ≤ rb.capacity := by
  induction h with
  | init => simp [RingBuf.new]
  | produceStep n _ hle ih =>
      have hfree := le_trans hle (get_space_buf_len_le _)
      obtain ⟨ih1, ih2⟩ := ih
      simp only [RingBuf.produce]
      omega
  | consumeStep n _ hle ih =>
      have havail := le_trans hle (get_data_buf_len_le _)
      obtain ⟨ih1, ih2⟩ := ih
      simp only [RingBuf.consume]
      omega

theorem cursor_pair_invariant_witness :
    ((RingBuf.new 4).produce 3).1.read_cursor ≤ ((RingBuf.new 4).produce 3).1.write_cursor ∧
      ((RingBuf.new 4).produce 3).1.write_cursor - ((RingBuf.new 4).produce 3).1.read_cursor ≤
        ((RingBuf.new 4).produce 3).1.capacity :=
  cursor_pair_invariant (Reachable.produceStep 3 Reachable.init (by decide))

/-- **C2**: `get_space_buf` (space_region) returns offset
`write_cursor mod capacity` and
`length = min(capacity − (w − r), capacity − (w mod capacity))`;
`get_data_buf` (data_region) returns offset `read_cursor mod capacity` and
`length = min(w − r, capacity − (r mod capacity))`.  Consequently every
returned region lies within physical offsets `[0, capacity)` and never
straddles the wrap boundary (`off + len ≤ capacity`), and length 0 is
returned exactly when no contiguous space (resp. data) exists. -/
theorem region_contiguity (rb : RingBuf) (h : WF rb) (hc : 0 < rb.capacity) :
    rb.get_space_buf =
      (rb.write_cursor % rb.capacity,
        min (rb.capacity - (rb.write_cursor - rb.read_cursor))
          (rb.capacity - rb.write_cursor % rb.capacity))
  ∧ rb.get_data_buf =
      (rb.read_cursor % rb.capacity,
        min (rb.write_cursor - rb.read_cursor)
          (rb.capacity - rb.read_cursor % rb.capacity))
  ∧ rb.get_space_buf.1 < rb.capacity
  ∧ rb.get_space_buf.1 + rb.get_space_buf.2 ≤ rb.capacity
  ∧ rb.get_data_buf.1 < rb.capacity
  ∧ rb.get_data_buf.1 + rb.get_data_buf.2 ≤ rb.capacity
  ∧ (rb.get_space_buf.2 = 0 ↔ rb.write_cursor - rb.read_cursor = rb.capacity)
  ∧ (rb.get_data_buf.2 = 0 ↔ rb.write_cursor = rb.read_cursor) := by
  obtain ⟨h1, h2⟩ := h
  have hw : rb.write_cursor % rb.capacity < rb.capacity := Nat.mod_lt _ hc
  have hr : rb.read_cursor % rb.capacity < rb.capacity := Nat.mod_lt _ hc
  refine ⟨rfl, rfl, hw, ?_, hr, ?_, ?_, ?_⟩ <;>
    simp only [RingBuf.get_space_buf, RingBuf.get_data_buf] <;> omega

theorem region_contiguity_witness :
    ((RingBuf.new 4).produce 2).1.get_space_buf.1 +
        ((RingBuf.new 4).produce 2).1.get_space_buf.2 ≤
      ((RingBuf.new 4).produce 2).1.capacity :=
  (region_contiguity ((RingBuf.new 4).produce 2).1 (by decide) (by decide)).2.2.2.1

/-- **C3**: `produce` (commit_write) returns `true` exactly on the calls that
take the occupancy `write_cursor − read_cursor` from 0 to greater than 0, and
`consume` (commit_read) returns `true` exactly on the calls that take the
free space `capacity − occupancy` from 0 to greater than 0; every other call
of either operation returns `false`. -/
theorem wake_boolean_correct (rb : RingBuf) (n : Nat) (h : WF rb) :
    ((rb.produce n).2 = true ↔
      rb.write_cursor - rb.read_cursor = 0 ∧
        0 < (rb.produce n).1.write_cursor - (rb.produce n).1.read_cursor)
  ∧ ((rb.consume n).2 = true ↔
      rb.capacity - (rb.write_cursor - rb.read_cursor) = 0 ∧
        0 < rb.capacity -
          ((rb.consume n).1.write_cursor - (rb.consume n).1.read_cursor)) := by
  obtain ⟨h1, h2⟩ := h
  simp only [RingBuf.produce, RingBuf.consume, Bool.and_eq_true, Bool.not_eq_true',
    beq_eq_false_iff_ne, beq_iff_eq, ne_eq]
  omega

theorem wake_boolean_correct_witness :
    ((RingBuf.new 4).produce 2).2 = true :=
  (wake_boolean_correct (RingBuf.new 4) 2 (by decide)).1.mpr (by decide)

/-- The EINVAL guard of the copying operations is never taken on a
well-formed buffer: zero capacity forces equal cursors. -/
theorem guard_false_of_WF (rb : RingBuf) (h : WF rb) :
    (rb.capacity == 0 && !(rb.write_cursor == rb.read_cursor)) = false := by
  obtain ⟨h1, h2⟩ := h
  rcases Nat.eq_zero_or_pos rb.capacity with hc | hc
  · have hwr : rb.write_cursor = rb.read_cursor := by omega
    simp [hwr]
  · simp [hc.ne']

/-- **C4**: a single copying `write` call never blocks or loops: when
`get_space_buf` reports zero length it returns `(false, 0)` immediately;
otherwise it transfers exactly `min(len(bytes), region.length)` bytes,
commits them with `produce`, and returns `produce`'s boolean with that count
— so a request longer than the contiguous region yields a transferred count
strictly below the request; `read` behaves symmetrically via
`get_data_buf`/`consume`. -/
theorem copy_short_transfer (rb : RingBuf) (bytes : List Nat) (bufLen : Nat)
    (h : WF rb) :
    (rb.get_space_buf.2 = 0 → rb.write bytes = .ok (rb, false, 0))
  ∧ (∀ rb' b n, rb.write bytes = .ok (rb', b, n) → 0 < rb.get_space_buf.2 →
      n = min bytes.length rb.get_space_buf.2 ∧ b = (rb.produce n).2 ∧
      rb'.write_cursor = rb.write_cursor + n ∧ rb'.read_cursor = rb.read_cursor)
  ∧ (∀ rb' b n, rb.write bytes = .ok (rb', b, n) →
      rb.get_space_buf.2 < bytes.length → n < bytes.length)
  ∧ (rb.get_data_buf.2 = 0 → rb.read bufLen = .ok (rb, false, 0, []))
  ∧ (∀ rb' b n out, rb.read bufLen = .ok (rb', b, n, out) →
      0 < rb.get_data_buf.2 →
      n = min bufLen rb.get_data_buf.2 ∧ b = (rb.consume n).2 ∧
      rb'.read_cursor = rb.read_cursor + n ∧
      rb'.write_cursor = rb.write_cursor ∧
      out = (rb.storage.drop rb.get_data_buf.1).take n)
  ∧ (∀ rb' b n out, rb.read bufLen = .ok (rb', b, n, out) →
      rb.get_data_buf.2 < bufLen → n < bufLen) := by
  have hguard := guard_false_of_WF rb h
  refine ⟨?_, ?_, ?_, ?_, ?_, ?_⟩
  · intro hz
    simp [RingBuf.write, hguard, hz]
  · intro rb' b n heq hpos
    rw [RingBuf.write] at heq
    simp only [hguard, Bool.false_eq_true, if_false, Nat.pos_iff_ne_zero.mp hpos,
      if_neg (Nat.pos_iff_ne_zero.mp hpos)] at heq
    obtain ⟨hrb', hb, hn⟩ := by
      simpa using heq
    subst hrb' hb hn
    refine ⟨rfl, ?_, ?_, ?_⟩ <;> simp [RingBuf.produce]
  · intro rb' b n heq hlt
    by_cases hz : rb.get_space_buf.2 = 0
    · simp [RingBuf.write, hguard, hz] at heq
      omega
    · rw [RingBuf.write] at heq
      simp only [hguard, Bool.false_eq_true, if_false, if_neg hz] at heq
      obtain ⟨hrb', hb, hn⟩ := by
        simpa using heq
      omega
  · intro hz
    simp [RingBuf.read, hguard, hz]
  · intro rb' b n out heq hpos
    rw [RingBuf.read] at heq
    simp only [hguard, Bool.false_eq_true, if_false,
      if_neg (Nat.pos_iff_ne_zero.mp hpos)] at heq
    obtain ⟨hrb', hb, hn, hout⟩ := by
      simpa using heq
    subst hrb' hb hn hout
    refine ⟨rfl, ?_, ?_, ?_, ?_⟩ <;> simp [RingBuf.consume]
  · intro rb' b n out heq hlt
    by_cases hz : rb.get_data_buf.2 = 0
    · simp [RingBuf.read, hguard, hz] at heq
      omega
    · rw [RingBuf.read] at heq
      simp only [hguard, Bool.false_eq_true, if_false, if_neg hz] at heq
      obtain ⟨hrb', hb, hn, hout⟩ := by
        simpa using heq
      omega

theorem copy_short_transfer_witness :
    WF (RingBuf.new 2) ∧ (2 : Nat) < ([7, 8, 9] : List Nat).length :=
  ⟨by decide,
    (copy_short_transfer (RingBuf.new 2) [7, 8, 9] 0 (by decide)).2.2.1
      { capacity := 2, storage := [7, 8], write_cursor := 2, read_cursor := 0 }
      true 2 rfl (by decide)⟩

/-- The strict variant's API-level write (`main.rs` lines 59–62) computes the
same result as the relaxed variant's write: on the shared sequential state
both take the same branches, and the only possible internal error is mapped
to the same `SysError EINVAL` the relaxed variant reports. -/
theorem apiWriteSeq_eq (rb : RingBuf) (bytes : List Nat) :
    apiWriteSeq rb bytes = rb.write bytes := by
  unfold apiWriteSeq RingBufSeq.write RingBuf.write
  cases hg : (rb.capacity == 0 && !(rb.write_cursor == rb.read_cursor)) with
  | true => simp [hg, Except.mapError]
  | false =>
      simp only [hg, Bool.false_eq_true, if_false]
      by_cases hz : (RingBufSeq.get_space_buf rb).2 = 0
      · rw [if_pos hz, if_pos (show rb.get_space_buf.2 = 0 from hz)]
        rfl
      · rw [if_neg hz, if_neg (show ¬rb.get_space_buf.2 = 0 from hz)]
        rfl

/-- Same as `apiWriteSeq_eq` on the read path (`main.rs` lines 63–66). -/
theorem apiReadSeq_eq (rb : RingBuf) (bufLen : Nat) :
    apiReadSeq rb bufLen = rb.read bufLen := by
  unfold apiReadSeq RingBufSeq.read RingBuf.read
  cases hg : (rb.capacity == 0 && !(rb.write_cursor == rb.read_cursor)) with
  | true => simp [hg, Except.mapError]
  | false =>
      simp only [hg, Bool.false_eq_true, if_false]
      by_cases hz : (RingBufSeq.get_data_buf rb).2 = 0
      · rw [if_pos hz, if_pos (show rb.get_data_buf.2 = 0 from hz)]
        rfl
      · rw [if_neg hz, if_neg (show ¬rb.get_data_buf.2 = 0 from hz)]
        rfl

/-- One API call behaves identically on the two variants. -/
theorem stepSeq_eq_stepRelaxed (rb : RingBuf) (op : ApiOp) :
    stepSeq rb op = stepRelaxed rb op := by
  cases op with
  | spaceBuf => rfl
  | dataBuf => rfl
  | produceOp n => rfl
  | consumeOp n => rfl
  | writeOp bytes =>
      simp only [stepSeq, stepRelaxed, apiWriteSeq_eq]
      rfl
  | readOp bufLen =>
      simp only [stepSeq, stepRelaxed, apiReadSeq_eq]
      rfl

/-- Call sequences behave identically on the two variants from any shared
starting state. -/
theorem runSeq_eq_runRelaxed (rb : RingBuf) (ops : List ApiOp) :
    runSeq rb ops = runRelaxed rb ops := by
  induction ops generalizing rb with
  | nil => rfl
  | cons op ops ih => simp [runSeq, runRelaxed, stepSeq_eq_stepRelaxed, ih]

/-- **C6**: used standalone under sequential semantics, the relaxed variant
`RingBuf` and the strict variant `RingBufSeq` are observationally equal: for
every construction capacity and every sequence of
`get_space_buf`/`get_data_buf`/`produce`/`consume`/`write`/`read` API calls,
both variants return the same results and reach the same cursor and storage
state. -/
theorem variants_observationally_equal (c : Nat) (ops : List ApiOp) :
    RingBufSeq.new c = RingBuf.new c ∧
      runSeq (RingBufSeq.new c) ops = runRelaxed (RingBuf.new c) ops :=
  ⟨rfl, runSeq_eq_runRelaxed _ ops⟩

/-- **C7**: the copying `write`/`read` return `SysError EINVAL` only for the
programming-contract violation of a zero-capacity target with contradictory
cursor state; on every well-formed buffer they never fail, and "nothing
available right now" is reported as a zero-byte-transferred `ok` result.  The
zero-copy operations (`get_space_buf`/`get_data_buf`/`produce`/`consume`) are
total functions of the state in this embedding and cannot fail at all. -/
theorem error_policy (rb : RingBuf) (bytes : List Nat) (bufLen : Nat) :
    (∀ e, rb.write bytes = .error e →
      (rb.capacity = 0 ∧ rb.write_cursor ≠ rb.read_cursor) ∧
        e = .SysError .EINVAL)
  ∧ (∀ e, rb.read bufLen = .error e →
      (rb.capacity = 0 ∧ rb.write_cursor ≠ rb.read_cursor) ∧
        e = .SysError .EINVAL)
  ∧ (WF rb →
      (∀ e, rb.write bytes ≠ .error e)
      ∧ (∀ e, rb.read bufLen ≠ .error e)
      ∧ (rb.get_space_buf.2 = 0 → rb.write bytes = .ok (rb, false, 0))
      ∧ (rb.get_data_buf.2 = 0 → rb.read bufLen = .ok (rb, false, 0, []))) := by
  refine ⟨?_, ?_, ?_⟩
  · intro e heq
    rw [RingBuf.write] at heq
    by_cases hg : (rb.capacity == 0 && !(rb.write_cursor == rb.read_cursor)) = true
    · rw [if_pos hg] at heq
      have hge : rb.capacity = 0 ∧ rb.write_cursor ≠ rb.read_cursor := by
        simpa using hg
      exact ⟨hge, ((Except.error.injEq _ _).mp heq).symm⟩
    · simp only [Bool.not_eq_true] at hg
      simp only [hg, Bool.false_eq_true, if_false] at heq
      by_cases hz : rb.get_space_buf.2 = 0 <;> simp [hz] at heq
  · intro e heq
    rw [RingBuf.read] at heq
    by_cases hg : (rb.capacity == 0 && !(rb.write_cursor == rb.read_cursor)) = true
    · rw [if_pos hg] at heq
      have hge : rb.capacity = 0 ∧ rb.write_cursor ≠ rb.read_cursor := by
        simpa using hg
      exact ⟨hge, ((Except.error.injEq _ _).mp heq).symm⟩
    · simp only [Bool.not_eq_true] at hg
      simp only [hg, Bool.false_eq_true, if_false] at heq
      by_cases hz : rb.get_data_buf.2 = 0 <;> simp [hz] at heq
  · intro h
    have hguard := guard_false_of_WF rb h
    refine ⟨?_, ?_, ?_, ?_⟩
    · intro e heq
      rw [RingBuf.write] at heq
      simp only [hguard, Bool.false_eq_true, if_false] at heq
      by_cases hz : rb.get_space_buf.2 = 0 <;> simp [hz] at heq
    · intro e heq
      rw [RingBuf.read] at heq
      simp only [hguard, Bool.false_eq_true, if_false] at heq
      by_cases hz : rb.get_data_buf.2 = 0 <;> simp [hz] at heq
    · intro hz
      simp [RingBuf.write, hguard, hz]
    · intro hz
      simp [RingBuf.read, hguard, hz]

theorem error_policy_witness :
    WF (RingBuf.new 3) ∧
      (RingBuf.new 3).read 5 = .ok (RingBuf.new 3, false, 0, []) :=
  ⟨by decide,
    ((error_policy (RingBuf.new 3) [] 5).2.2 (by decide)).2.2.2 (by decide)⟩

/-- **C8**: across the interface, `produce` (commit_write) is the only
operation advancing `write_cursor` and `consume` (commit_read) the only one
advancing `read_cursor` — the copying `write`/`read` touch the cursors only
through them, leaving the peer's cursor unchanged; both cursors are
monotonically non-decreasing; and `get_space_buf`/`get_data_buf` leave the
whole state untouched (stated on the API step relation: the post-state of a
region query is the pre-state). -/
theorem cursor_frame_effects (rb : RingBuf) (n : Nat) (bytes : List Nat)
    (bufLen : Nat) :
    ((stepRelaxed rb .spaceBuf).1 = rb ∧ (stepRelaxed rb .dataBuf).1 = rb)
  ∧ ((rb.produce n).1.read_cursor = rb.read_cursor
      ∧ (rb.produce n).1.capacity = rb.capacity
      ∧ (rb.produce n).1.storage = rb.storage
      ∧ rb.write_cursor ≤ (rb.produce n).1.write_cursor)
  ∧ ((rb.consume n).1.write_cursor = rb.write_cursor
      ∧ (rb.consume n).1.capacity = rb.capacity
      ∧ (rb.consume n).1.storage = rb.storage
      ∧ rb.read_cursor ≤ (rb.consume n).1.read_cursor)
  ∧ (∀ rb' b m, rb.write bytes = .ok (rb', b, m) →
      rb'.read_cursor = rb.read_cursor ∧ rb'.capacity = rb.capacity ∧
        rb.write_cursor ≤ rb'.write_cursor)
  ∧ (∀ rb' b m out, rb.read bufLen = .ok (rb', b, m, out) →
      rb'.write_cursor = rb.write_cursor ∧ rb'.capacity = rb.capacity ∧
        rb'.storage = rb.storage ∧ rb.read_cursor ≤ rb'.read_cursor) := by
  refine ⟨⟨rfl, rfl⟩, ?_, ?_, ?_, ?_⟩
  · exact ⟨rfl, rfl, rfl, Nat.le_add_right _ _⟩
  · exact ⟨rfl, rfl, rfl, Nat.le_add_right _ _⟩
  · intro rb' b m heq
    rw [RingBuf.write] at heq
    by_cases hg : (rb.capacity == 0 && !(rb.write_cursor == rb.read_cursor)) = true
    · simp [hg] at heq
    · simp only [Bool.not_eq_true] at hg
      simp only [hg, Bool.false_eq_true, if_false] at heq
      by_cases hz : rb.get_space_buf.2 = 0
      · simp only [hz, if_pos rfl] at heq
        obtain ⟨h1, h2, h3⟩ := by simpa using heq
        subst h1
        simp
      · simp only [if_neg hz] at heq
        obtain ⟨h1, h2, h3⟩ := by simpa using heq
        subst h1
        simp [RingBuf.produce]
  · intro rb' b m out heq
    rw [RingBuf.read] at heq
    by_cases hg : (rb.capacity == 0 && !(rb.write_cursor == rb.read_cursor)) = true
    · simp [hg] at heq
    · simp only [Bool.not_eq_true] at hg
      simp only [hg, Bool.false_eq_true, if_false] at heq
      by_cases hz : rb.get_data_buf.2 = 0
      · simp only [hz, if_pos rfl] at heq
        obtain ⟨h1, h2, h3, h4⟩ := by simpa using heq
        subst h1
        simp
      · simp only [if_neg hz] at heq
        obtain ⟨h1, h2, h3, h4⟩ := by simpa using heq
        subst h1
        simp [RingBuf.consume]

theorem cursor_frame_effects_witness :
    ((RingBuf.new 4).produce 2).1.read_cursor = (RingBuf.new 4).read_cursor ∧
      (stepRelaxed (RingBuf.new 4) .spaceBuf).1 = RingBuf.new 4 :=
  ⟨(cursor_frame_effects (RingBuf.new 4) 2 [] 0).2.1.1,
    (cursor_frame_effects (RingBuf.new 4) 2 [] 0).1.1⟩

/-- **C9**: `new(capacity)`, for every positive capacity (no power-of-two
requirement), yields a buffer with both cursors zero; immediately after
construction `get_data_buf` (data_region) reports length 0,
`get_space_buf` (space_region) reports length = capacity, and no byte of
storage is exposed for reading before it has been written: a `read` straight
after construction transfers zero bytes and returns no storage content. -/
theorem construction_initial_state (c : Nat) (bufLen : Nat) (_hc : 0 < c) :
    (RingBuf.new c).write_cursor = 0
  ∧ (RingBuf.new c).read_cursor = 0
  ∧ (RingBuf.new c).capacity = c
  ∧ (RingBuf.new c).get_data_buf.2 = 0
  ∧ (RingBuf.new c).get_space_buf.2 = c
  ∧ (RingBuf.new c).read bufLen = .ok (RingBuf.new c, false, 0, []) := by
  refine ⟨rfl, rfl, rfl, ?_, ?_, ?_⟩
  · simp [RingBuf.new, RingBuf.get_data_buf]
  · simp [RingBuf.new, RingBuf.get_space_buf]
  · simp [RingBuf.new, RingBuf.read, RingBuf.get_data_buf]

theorem construction_initial_state_witness :
    (0 : Nat) < 4 ∧ (RingBuf.new 4).get_space_buf.2 = 4 :=
  ⟨by decide, (construction_initial_state 4 1 (by decide)).2.2.2.2.1⟩

/-- **C10**: a zero-count commit is a safe no-op at the public interface: in
every buffer state, `produce 0` (commit_write(0)) and `consume 0`
(commit_read(0)) leave the cursors and storage unchanged — the whole state is
returned as is — and return `false` (no spurious wake signal), which the
drivers in `main.rs` rely on by calling `produce(0)`/`consume(0)` on every
loop iteration when `batch_size` is 1 (lines 115 and 155). -/
theorem zero_commit_noop (rb : RingBuf) :
    rb.produce 0 = (rb, false) ∧ rb.consume 0 = (rb, false) := by
  constructor
  · simp [RingBuf.produce]
  · simp [RingBuf.consume]
